import Mathlib

/-!
Shallow embedding of `src/waftest.py`, a WAF limit-discovery tool.

The program probes a remote edge with HTTP requests of increasing sizes and
narrows down, to the byte, the largest request-header size and request-body
size the edge accepts.  The network probe (`test_payload` / `test_header`,
lines 14-53 of the source) is an external collaborator: it is embedded here as
an arbitrary pure function `Probe` from a size to an HTTP status code plus
response headers (a transport failure is status `0` with empty headers, as in
the source's `except` branches).

Every loop of the source is embedded as a structurally recursive function on a
fuel argument; the functions that the source guarantees to terminate
(`binary_search_max_payload`, `binary_search_max_header` and the fine phase of
`refine_boundary`) are then instantiated with fuel `(high + 1 - low).toNat`,
an upper bound on the number of iterations of a loop that runs while
`low ≤ high` and shrinks `high - low` on every iteration, so the wrapper
computes exactly the source loop's result (a fuel-irrelevance lemma below
makes this precise).  The overshoot phase of `refine_boundary` has no such
bound in the source — it genuinely diverges on an always-accepting probe — so
its fuel is kept as an explicit parameter and exhaustion is reported as
`none`.

Python's floor division `(low + high) // 2` is `(low + high) / 2` on `Int`
(Lean's `Int` division is euclidean, which coincides with floor division for
the positive divisor `2`).  Python's `str.lower` / `str.startswith` are
embedded as `strLower` / `strStartsWith` over the character list, and the
float expressions `abs(size - limit) / limit < 0.05` and `f"{size/1024:.2f}"`
are embedded by exact integer arithmetic: both are exact at the integer sizes
involved (`size / 1024` is exactly representable as a double for
`size < 2^53`, and `%.2f` rounds it half-to-even, modelled by
`roundHundredthsHalfEven`).
-/

/-- Response headers, as the ordered key/value pairs of the Python `dict`. -/
abbrev Headers := List (String × String)

/-- A pure probe function: size ↦ (HTTP status code, response headers).
Embeds the external collaborators `test_payload` / `test_header`
(lines 14-53): a transport failure is status `0` with empty headers. -/
abbrev Probe := Int → Nat × Headers

/-- `MIN_SIZE = 64000` (line 9). -/
def MIN_SIZE : Int := 64000

/-- `MAX_SIZE = 10485760` (line 10). -/
def MAX_SIZE : Int := 10485760

/-- `HEADER_MIN_SIZE = 1000` (line 11). -/
def HEADER_MIN_SIZE : Int := 1000

/-- `HEADER_MAX_SIZE = 1048576` (line 12). -/
def HEADER_MAX_SIZE : Int := 1048576

/-- The success test `http_code in (200, 201, 204, 501)`
(lines 74, 107, 141 and 163 of the source). -/
def acceptedCode (c : Nat) : Bool :=
  c == 200 || c == 201 || c == 204 || c == 501

/-- The three-way outcome category of a probe: the spec's `Outcome`.  In the
source it is visible in the printed labels: `✓ OK` (ACCEPTED), `✗ WAF
BLOCKED` / `✗ BLOCKED` / `✗ HEADER TOO LARGE` (BLOCKED), `✗ FAILED` (ERROR). -/
inductive Outcome where
  | ACCEPTED
  | BLOCKED
  | ERROR
deriving DecidableEq

/-- Classification performed by `binary_search_max_payload` (lines 74-84):
accepted codes print `✓ OK`; `400` prints `✗ WAF BLOCKED`; every other code
prints `✗ FAILED`. -/
def coarseClassifyPayload (c : Nat) : Outcome :=
  if acceptedCode c then .ACCEPTED
  else if c == 400 then .BLOCKED
  else .ERROR

/-- Classification performed by `binary_search_max_header` (lines 107-119):
accepted codes print `✓ OK`; `400` prints `✗ WAF BLOCKED`; `431` prints
`✗ HEADER TOO LARGE` (a blocked signal, per the banner on line 96:
`HTTP 400/431 = WAF/Server blocked`); every other code prints `✗ FAILED`. -/
def coarseClassifyHeader (c : Nat) : Outcome :=
  if acceptedCode c then .ACCEPTED
  else if c == 400 then .BLOCKED
  else if c == 431 then .BLOCKED
  else .ERROR

/-- Classification performed by the overshoot phase of `refine_boundary`
(lines 138-146), for both probe kinds — the function takes no probe-kind
parameter: `400` and `431` print `✗ BLOCKED`; accepted codes print `✓ OK`;
every other code prints `✗ FAILED`. -/
def overshootClassify (c : Nat) : Outcome :=
  if c == 400 || c == 431 then .BLOCKED
  else if acceptedCode c then .ACCEPTED
  else .ERROR

/-- Classification performed by the fine phase of `refine_boundary`
(lines 163-173), for both probe kinds: accepted codes print `✓ OK`; `400` and
`431` print `✗ BLOCKED`; every other code prints `✗ FAILED`. -/
def fineClassify (c : Nat) : Outcome :=
  if acceptedCode c then .ACCEPTED
  else if c == 400 || c == 431 then .BLOCKED
  else .ERROR

/-- Fueled unrolling of the coarse-search loop (lines 66-85 / 99-120):
`while low <= high: mid = (low + high) // 2; if accepted: found_max = mid;
low = mid + 1 else: high = mid - 1`.  The two non-accepted arms of the source
(`400` versus other codes) differ only in the printed label — see
`coarseClassifyPayload` / `coarseClassifyHeader` — and both set
`high = mid - 1`. -/
def coarseLoopF (probe : Probe) : Nat → Int → Int → Int → Int
  | 0, _, _, found_max => found_max
  | fuel + 1, low, high, found_max =>
    if low ≤ high then
      let mid := (low + high) / 2
      if acceptedCode (probe mid).1 then
        coarseLoopF probe fuel (mid + 1) high mid
      else
        coarseLoopF probe fuel low (mid - 1) found_max
    else found_max

/-- `coarseLoopF`, additionally returning the list of probes actually issued,
in order, as (size, status code) pairs. -/
def coarseLoopTraceF (probe : Probe) : Nat → Int → Int → Int → Int × List (Int × Nat)
  | 0, _, _, found_max => (found_max, [])
  | fuel + 1, low, high, found_max =>
    if low ≤ high then
      let mid := (low + high) / 2
      let code := (probe mid).1
      if acceptedCode code then
        let r := coarseLoopTraceF probe fuel (mid + 1) high mid
        (r.1, (mid, code) :: r.2)
      else
        let r := coarseLoopTraceF probe fuel low (mid - 1) found_max
        (r.1, (mid, code) :: r.2)
    else (found_max, [])

/-- Fuel sufficient for any loop that runs while `low ≤ high` and shrinks
`high - low` on every iteration: the size of the range `[low, high]`. -/
def loopFuel (low high : Int) : Nat := (high + 1 - low).toNat

/-- The coarse-search loop itself: `coarseLoopF` with sufficient fuel. -/
def coarseSearch (probe : Probe) (low high found_max : Int) : Int :=
  coarseLoopF probe (loopFuel low high) low high found_max

/-- The coarse-search loop, with the list of probes it issued. -/
def coarseSearchTrace (probe : Probe) (low high found_max : Int) : Int × List (Int × Nat) :=
  coarseLoopTraceF probe (loopFuel low high) low high found_max

/-- `binary_search_max_payload` (lines 55-86): coarse search over
`[MIN_SIZE, MAX_SIZE]` starting from `found_max = 0`. -/
def binary_search_max_payload (probe : Probe) : Int :=
  coarseSearch probe MIN_SIZE MAX_SIZE 0

/-- `binary_search_max_header` (lines 88-121): coarse search over
`[HEADER_MIN_SIZE, HEADER_MAX_SIZE]` starting from `found_max = 0`. -/
def binary_search_max_header (probe : Probe) : Int :=
  coarseSearch probe HEADER_MIN_SIZE HEADER_MAX_SIZE 0

/-- The overshoot phase of `refine_boundary` (lines 129-146): starting at
`current = base_size` with `step = 10000`, `while True`: probe `current`;
`400`/`431` breaks, an accepted code adds `step` and continues, any other code
breaks; on break, `current` is returned.  The source loop has no iteration
bound, so the fuel is an explicit parameter and exhaustion yields `none`. -/
def overshootF (probe : Probe) : Nat → Int → Option Int
  | 0, _ => none
  | fuel + 1, current =>
    let code := (probe current).1
    if code == 400 || code == 431 then some current
    else if acceptedCode code then overshootF probe fuel (current + 10000)
    else some current

/-- Fueled unrolling of the fine-phase loop of `refine_boundary`
(lines 157-173): `while low <= high: mid = (low + high) // 2; if accepted:
last_ok = mid; last_headers = headers; low = mid + 1 else: high = mid - 1`.
The source's two non-accepted arms (`400`/`431` versus other codes) differ
only in the printed label — see `fineClassify` — and both set
`high = mid - 1`. -/
def fineLoopF (probe : Probe) : Nat → Int → Int → Int → Headers → Int × Headers
  | 0, _, _, last_ok, last_headers => (last_ok, last_headers)
  | fuel + 1, low, high, last_ok, last_headers =>
    if low ≤ high then
      let mid := (low + high) / 2
      let r := probe mid
      if acceptedCode r.1 then
        fineLoopF probe fuel (mid + 1) high mid r.2
      else
        fineLoopF probe fuel low (mid - 1) last_ok last_headers
    else (last_ok, last_headers)

/-- `fineLoopF`, additionally returning the list of probes actually issued,
in order, as (size, status code, response headers) triples. -/
def fineLoopTraceF (probe : Probe) :
    Nat → Int → Int → Int → Headers → (Int × Headers) × List (Int × Nat × Headers)
  | 0, _, _, last_ok, last_headers => ((last_ok, last_headers), [])
  | fuel + 1, low, high, last_ok, last_headers =>
    if low ≤ high then
      let mid := (low + high) / 2
      let r := probe mid
      if acceptedCode r.1 then
        let res := fineLoopTraceF probe fuel (mid + 1) high mid r.2
        (res.1, (mid, r.1, r.2) :: res.2)
      else
        let res := fineLoopTraceF probe fuel low (mid - 1) last_ok last_headers
        (res.1, (mid, r.1, r.2) :: res.2)
    else ((last_ok, last_headers), [])

/-- The fine-phase loop itself: `fineLoopF` with sufficient fuel. -/
def fineSearch (probe : Probe) (low high last_ok : Int) (last_headers : Headers) :
    Int × Headers :=
  fineLoopF probe (loopFuel low high) low high last_ok last_headers

/-- The fine-phase loop, with the list of probes it issued. -/
def fineSearchTrace (probe : Probe) (low high last_ok : Int) (last_headers : Headers) :
    (Int × Headers) × List (Int × Nat × Headers) :=
  fineLoopTraceF probe (loopFuel low high) low high last_ok last_headers

/-- `refine_boundary` (lines 123-180): overshoot from `base_size` to a
rejected `current`, then fine binary search of `[base_size, current]` with
`last_ok = base_size` and `last_headers = {}`, returning
`(last_ok, last_headers)`.  `none` means the overshoot loop had not finished
within `fuel` iterations (the source's `while True` runs forever in that
case). -/
def refine_boundary (probe : Probe) (base_size : Int) (fuel : Nat) :
    Option (Int × Headers) :=
  match overshootF probe fuel base_size with
  | none => none
  | some current => some (fineSearch probe base_size current base_size [])

/-- Python's `str.lower`, on the character list. -/
def strLower (s : String) : String := String.mk (s.data.map Char.toLower)

/-- Python's `str.startswith`, on the character list. -/
def strStartsWith (s p : String) : Bool := List.isPrefixOf p.data s.data

/-- The `prefixes` list of `extract_azion_metadata` (line 185). -/
def azionPrefixes : List String := ["x-azion", "azion", "x-cache", "server"]

/-- `extract_azion_metadata` (lines 182-192): keep, in order, exactly the
header entries whose lowercased key starts with one of the fixed prefixes. -/
def extract_azion_metadata (headers : Headers) : Headers :=
  headers.filter fun kv => azionPrefixes.any fun p => strStartsWith (strLower kv.1) p

/-- The `common_limits` table of `guess_limit_type` (lines 197-209), in the
source's insertion order. -/
def common_limits : List (Int × String) :=
  [ (65536, "64 KB (common WAF limit)"),
    (131072, "128 KB (common WAF limit)"),
    (262144, "256 KB (common WAF limit)"),
    (524288, "512 KB (common WAF limit)"),
    (1048576, "1 MB (common WAF limit)"),
    (2097152, "2 MB (common WAF limit)"),
    (5242880, "5 MB (common WAF limit)"),
    (10485760, "10 MB (common WAF limit)"),
    (8192, "8 KB (common header limit)"),
    (16384, "16 KB (common header limit)"),
    (32768, "32 KB (common header limit)") ]

/-- The number of hundredths of KB in `size` bytes, rounded half-to-even:
the integer `c` such that `"%.2f" % (size / 1024)` prints `c / 100` (for
`0 ≤ size < 2^53`, `size / 1024 = size * 25 / 256` is exact as a double and
Python's `.2f` rounds it half-to-even). -/
def roundHundredthsHalfEven (size : Int) : Int :=
  let q := size * 25
  let c := q / 256
  let r := q % 256
  if 2 * r < 256 then c
  else if 2 * r > 256 then c + 1
  else if c % 2 = 0 then c else c + 1

/-- The string `f"{size / 1024:.2f}"` (line 217), for `size ≥ 0`. -/
def formatKB2dp (size : Int) : String :=
  let n := (roundHundredthsHalfEven size).toNat
  toString (n / 100) ++ "." ++ (if n % 100 < 10 then "0" else "") ++ toString (n % 100)

/-- The `for limit, description in common_limits.items()` loop of
`guess_limit_type` (lines 212-214): return the first description whose limit
is within tolerance — `abs(size - limit) / limit < 0.05`, in exact integer
form `20 * |size - limit| < limit`. -/
def guessScan (size : Int) : List (Int × String) → Option String
  | [] => none
  | (limit, description) :: rest =>
    if (20 : Int) * (size - limit).natAbs < limit then some description
    else guessScan size rest

/-- `guess_limit_type` (lines 194-217): the description of the first table
entry within 5% relative tolerance, else the fallback
`f"{size / 1024:.2f} KB (custom limit)"`. -/
def guess_limit_type (size : Int) : String :=
  (guessScan size common_limits).getD (formatKB2dp size ++ " KB (custom limit)")

/-- The per-kind result dict built by `async_main` (lines 237-241 / 256-260):
`{'size': ..., 'headers': ..., 'guess': guess_limit_type(...)}`. -/
structure PipelineResult where
  size : Int
  headers : Headers
  guess : String
deriving DecidableEq

/-- The per-kind pipeline step of `async_main` (lines 230-241 / 249-260),
with the boundary refiner and the limit guesser abstracted: if the coarse
result is `> 0`, refine it and build the result dict; otherwise the result
stays `None` and neither `refineF` nor `guessF` is consulted. -/
def pipelineWith (coarseResult : Int) (refineF : Int → Option (Int × Headers))
    (guessF : Int → String) : Option PipelineResult :=
  if coarseResult > 0 then
    match refineF coarseResult with
    | some r => some ⟨r.1, r.2, guessF r.1⟩
    | none => none
  else none

/-- The header pipeline of `async_main` (lines 230-241). -/
def runHeaderPipeline (probe : Probe) (fuel : Nat) : Option PipelineResult :=
  pipelineWith (binary_search_max_header probe)
    (fun base => refine_boundary probe base fuel) guess_limit_type

/-- The payload pipeline of `async_main` (lines 249-260). -/
def runPayloadPipeline (probe : Probe) (fuel : Nat) : Option PipelineResult :=
  pipelineWith (binary_search_max_payload probe)
    (fun base => refine_boundary probe base fuel) guess_limit_type

/-- `async_main` (lines 219-304): the header pipeline, then the payload
pipeline, each over its own probe function; the pair of per-kind results. -/
def async_main (headerProbe payloadProbe : Probe) (fuel : Nat) :
    Option PipelineResult × Option PipelineResult :=
  (runHeaderPipeline headerProbe fuel, runPayloadPipeline payloadProbe fuel)

/-- What the final summary prints for one probe kind (lines 269-290): either
the found block (size, KB/MB renderings, guess, first blocked = size + 1) or
the line `No successful <kind> size found`. -/
inductive KindReport where
  | notFound
  | found (size : Int) (guess : String)
deriving DecidableEq

/-- The summary block for one probe kind (lines 269-290). -/
def reportOf : Option PipelineResult → KindReport
  | none => .notFound
  | some r => .found r.size r.guess

/-- The `AZION METADATA` block of the final summary (lines 292-301): metadata
is extracted from a single headers mapping — the payload result's headers if
the payload pipeline produced a result, else the header result's headers —
and an empty extraction prints nothing (embedded as `[]`). -/
def metadataSection (headerResult payloadResult : Option PipelineResult) : Headers :=
  match payloadResult with
  | some p => extract_azion_metadata p.headers
  | none =>
    match headerResult with
    | some h => extract_azion_metadata h.headers
    | none => []

/-- Mock probe of the spec's end-to-end scenario (§8): ACCEPTED (`501`, with
a fixed response-header set) for sizes `≤ 73000`, BLOCKED (`400`) above. -/
def mockProbe : Probe := fun s =>
  if s ≤ 73000 then (501, [("Server", "mock-edge")]) else (400, [])

/-- An always-accepting probe: every size gets HTTP 200. -/
def alwaysOkProbe : Probe := fun _ => (200, [("server", "ok")])

/-- An always-rejecting probe: every size gets HTTP 403 (an ERROR code). -/
def alwaysRejectProbe : Probe := fun _ => (403, [])

/-! ## Helper lemmas -/

lemma acceptedCode_iff (c : Nat) :
    acceptedCode c = true ↔ c = 200 ∨ c = 201 ∨ c = 204 ∨ c = 501 := by
  simp [acceptedCode, or_assoc]

lemma coarseLoopTraceF_fst (probe : Probe) :
    ∀ (fuel : Nat) (low high fm : Int),
      (coarseLoopTraceF probe fuel low high fm).1 = coarseLoopF probe fuel low high fm := by
  intro fuel
  induction fuel with
  | zero => intro low high fm; rfl
  | succ n ih =>
    intro low high fm
    by_cases hlh : low ≤ high
    · by_cases hacc : acceptedCode (probe ((low + high) / 2)).1 = true
      · simp [coarseLoopTraceF, coarseLoopF, hlh, hacc, ih]
      · simp [coarseLoopTraceF, coarseLoopF, hlh, hacc, ih]
    · simp [coarseLoopTraceF, coarseLoopF, hlh]

lemma coarseSearchTrace_fst (probe : Probe) (low high fm : Int) :
    (coarseSearchTrace probe low high fm).1 = coarseSearch probe low high fm :=
  coarseLoopTraceF_fst probe (loopFuel low high) low high fm

lemma coarseLoopTraceF_inv (probe : Probe) :
    ∀ (fuel : Nat) (low high fm : Int),
      (∀ p ∈ (coarseLoopTraceF probe fuel low high fm).2,
          low ≤ p.1 ∧ p.1 ≤ high ∧ p.2 = (probe p.1).1) ∧
      (((coarseLoopTraceF probe fuel low high fm).1 = fm ∧
          ∀ p ∈ (coarseLoopTraceF probe fuel low high fm).2, acceptedCode p.2 = false) ∨
        (∃ c, ((coarseLoopTraceF probe fuel low high fm).1, c) ∈
              (coarseLoopTraceF probe fuel low high fm).2 ∧
          acceptedCode c = true ∧ low ≤ (coarseLoopTraceF probe fuel low high fm).1 ∧
          (coarseLoopTraceF probe fuel low high fm).1 ≤ high)) ∧
      (∀ p ∈ (coarseLoopTraceF probe fuel low high fm).2,
          acceptedCode p.2 = true → p.1 ≤ (coarseLoopTraceF probe fuel low high fm).1) := by
  intro fuel
  induction fuel with
  | zero =>
    intro low high fm
    refine ⟨?_, Or.inl ⟨rfl, ?_⟩, ?_⟩ <;> simp [coarseLoopTraceF]
  | succ n ih =>
    intro low high fm
    by_cases hlh : low ≤ high
    · have hm1 : low ≤ (low + high) / 2 := by omega
      have hm2 : (low + high) / 2 ≤ high := by omega
      by_cases hacc : acceptedCode (probe ((low + high) / 2)).1 = true
      · have heq : coarseLoopTraceF probe (n + 1) low high fm =
            ((coarseLoopTraceF probe n ((low + high) / 2 + 1) high ((low + high) / 2)).1,
             ((low + high) / 2, (probe ((low + high) / 2)).1) ::
               (coarseLoopTraceF probe n ((low + high) / 2 + 1) high ((low + high) / 2)).2) := by
          simp [coarseLoopTraceF, hlh, hacc]
        obtain ⟨ihB, ihD, ihM⟩ := ih ((low + high) / 2 + 1) high ((low + high) / 2)
        rw [heq]
        refine ⟨?_, ?_, ?_⟩
        · intro p hp
          rcases List.mem_cons.mp hp with h | h
          · subst h; exact ⟨hm1, hm2, rfl⟩
          · obtain ⟨h1, h2, h3⟩ := ihB p h
            exact ⟨by omega, h2, h3⟩
        · rcases ihD with ⟨hv, _⟩ | ⟨c, hc, hca, hcl, hch⟩
          · refine Or.inr ⟨(probe ((low + high) / 2)).1, ?_, hacc, by omega, by omega⟩
            rw [hv]
            exact List.mem_cons_self _ _
          · exact Or.inr ⟨c, List.mem_cons_of_mem _ hc, hca, by omega, hch⟩
        · intro p hp hpa
          rcases List.mem_cons.mp hp with h | h
          · subst h
            rcases ihD with ⟨hv, _⟩ | ⟨c, _, _, hcl, _⟩
            · rw [hv]
            · simp only []
              omega
          · exact ihM p h hpa
      · have heq : coarseLoopTraceF probe (n + 1) low high fm =
            ((coarseLoopTraceF probe n low ((low + high) / 2 - 1) fm).1,
             ((low + high) / 2, (probe ((low + high) / 2)).1) ::
               (coarseLoopTraceF probe n low ((low + high) / 2 - 1) fm).2) := by
          simp [coarseLoopTraceF, hlh, hacc]
        simp only [Bool.not_eq_true] at hacc
        obtain ⟨ihB, ihD, ihM⟩ := ih low ((low + high) / 2 - 1) fm
        rw [heq]
        refine ⟨?_, ?_, ?_⟩
        · intro p hp
          rcases List.mem_cons.mp hp with h | h
          · subst h; exact ⟨hm1, hm2, rfl⟩
          · obtain ⟨h1, h2, h3⟩ := ihB p h
            exact ⟨h1, by omega, h3⟩
        · rcases ihD with ⟨hv, hnone⟩ | ⟨c, hc, hca, hcl, hch⟩
          · refine Or.inl ⟨hv, ?_⟩
            intro p hp
            rcases List.mem_cons.mp hp with h | h
            · subst h; exact hacc
            · exact hnone p h
          · exact Or.inr ⟨c, List.mem_cons_of_mem _ hc, hca, hcl, by omega⟩
        · intro p hp hpa
          rcases List.mem_cons.mp hp with h | h
          · subst h
            simp only [] at hpa
            rw [hacc] at hpa
            cases hpa
          · exact ihM p h hpa
    · refine ⟨?_, Or.inl ⟨?_, ?_⟩, ?_⟩ <;> simp [coarseLoopTraceF, hlh]

lemma coarseLoopTraceF_fuel_irrel (probe : Probe) :
    ∀ (f1 f2 : Nat) (low high fm : Int),
      loopFuel low high ≤ f1 → loopFuel low high ≤ f2 →
      coarseLoopTraceF probe f1 low high fm = coarseLoopTraceF probe f2 low high fm := by
  intro f1
  induction f1 with
  | zero =>
    intro f2 low high fm h1 h2
    have hlh : ¬ low ≤ high := by
      simp only [loopFuel] at h1
      omega
    cases f2 with
    | zero => rfl
    | succ m => simp [coarseLoopTraceF, hlh]
  | succ n ih =>
    intro f2 low high fm h1 h2
    by_cases hlh : low ≤ high
    · obtain ⟨m, rfl⟩ : ∃ m, f2 = m + 1 := by
        cases f2 with
        | zero =>
          exfalso
          simp only [loopFuel] at h2
          omega
        | succ m => exact ⟨m, rfl⟩
      by_cases hacc : acceptedCode (probe ((low + high) / 2)).1 = true
      · have hrw := ih m ((low + high) / 2 + 1) high ((low + high) / 2)
          (by simp only [loopFuel] at h1 ⊢; omega)
          (by simp only [loopFuel] at h2 ⊢; omega)
        simp [coarseLoopTraceF, hlh, hacc, hrw]
      · have hrw := ih m low ((low + high) / 2 - 1) fm
          (by simp only [loopFuel] at h1 ⊢; omega)
          (by simp only [loopFuel] at h2 ⊢; omega)
        simp [coarseLoopTraceF, hlh, hacc, hrw]
    · cases f2 with
      | zero => simp [coarseLoopTraceF, hlh]
      | succ m => simp [coarseLoopTraceF, hlh]

lemma coarseLoopTraceF_length (probe : Probe) :
    ∀ (fuel : Nat) (low high fm : Int),
      (coarseLoopTraceF probe fuel low high fm).2.length ≤ fuel := by
  intro fuel
  induction fuel with
  | zero => intro low high fm; simp [coarseLoopTraceF]
  | succ n ih =>
    intro low high fm
    by_cases hlh : low ≤ high
    · by_cases hacc : acceptedCode (probe ((low + high) / 2)).1 = true
      · have := ih ((low + high) / 2 + 1) high ((low + high) / 2)
        simp only [coarseLoopTraceF, if_pos hlh, if_pos hacc, List.length_cons]
        omega
      · have := ih low ((low + high) / 2 - 1) fm
        simp only [coarseLoopTraceF, if_pos hlh, if_neg hacc, List.length_cons]
        omega
    · simp [coarseLoopTraceF, hlh]

lemma overshootF_none_of_all_accepted (probe : Probe)
    (hall : ∀ s : Int, acceptedCode (probe s).1 = true) :
    ∀ (fuel : Nat) (current : Int), overshootF probe fuel current = none := by
  intro fuel
  induction fuel with
  | zero => intro current; rfl
  | succ n ih =>
    intro current
    have h400 : ((probe current).1 == 400 || (probe current).1 == 431) = false := by
      rcases (acceptedCode_iff _).mp (hall current) with h | h | h | h <;> simp [h]
    simp [overshootF, h400, hall current, ih]

lemma overshootF_monotone (probe : Probe) (B : Int)
    (hmono : ∀ s : Int, acceptedCode (probe s).1 = true ↔ s ≤ B) :
    ∀ (fuel : Nat) (current : Int), current ≤ B + 10000 →
      B + 10000 < current + 10000 * (fuel : Int) →
      ∃ c, overshootF probe fuel current = some c ∧ B < c ∧ c ≤ B + 10000 := by
  intro fuel
  induction fuel with
  | zero =>
    intro current h1 h2
    exfalso
    omega
  | succ n ih =>
    intro current h1 h2
    by_cases hcur : current ≤ B
    · have hacc : acceptedCode (probe current).1 = true := (hmono current).mpr hcur
      have h400 : ((probe current).1 == 400 || (probe current).1 == 431) = false := by
        rcases (acceptedCode_iff _).mp hacc with h | h | h | h <;> simp [h]
      obtain ⟨c, hc, hb, hcb⟩ := ih (current + 10000) (by omega) (by push_cast at h2 ⊢; omega)
      refine ⟨c, ?_, hb, hcb⟩
      simp only [overshootF, h400, Bool.false_eq_true, if_false, hacc, if_true]
      exact hc
    · have hacc : acceptedCode (probe current).1 = false := by
        cases h : acceptedCode (probe current).1
        · rfl
        · exact absurd ((hmono current).mp h) hcur
      by_cases h400 : ((probe current).1 == 400 || (probe current).1 == 431) = true
      · exact ⟨current, by simp [overshootF, h400], by omega, by omega⟩
      · have h400f : ((probe current).1 == 400 || (probe current).1 == 431) = false := by
          simpa using h400
        exact ⟨current, by simp [overshootF, h400f, hacc], by omega, by omega⟩

lemma fineLoopF_monotone (probe : Probe) (B : Int)
    (hmono : ∀ s : Int, acceptedCode (probe s).1 = true ↔ s ≤ B) :
    ∀ (fuel : Nat) (low high ok : Int) (hd : Headers),
      loopFuel low high ≤ fuel → low ≤ B + 1 → B ≤ high →
      (low = B + 1 → ok = B ∧ hd = (probe B).2) →
      fineLoopF probe fuel low high ok hd = (B, (probe B).2) := by
  intro fuel
  induction fuel with
  | zero =>
    intro low high ok hd hf h1 h2 h3
    obtain ⟨hok, hhd⟩ := h3 (by simp only [loopFuel] at hf; omega)
    simp [fineLoopF, hok, hhd]
  | succ n ih =>
    intro low high ok hd hf h1 h2 h3
    by_cases hlh : low ≤ high
    · by_cases hcase : (low + high) / 2 ≤ B
      · have hacc : acceptedCode (probe ((low + high) / 2)).1 = true := (hmono _).mpr hcase
        have hrec := ih ((low + high) / 2 + 1) high ((low + high) / 2)
          (probe ((low + high) / 2)).2
          (by simp only [loopFuel] at hf ⊢; omega) (by omega) h2
          (by
            intro he
            have hmb : (low + high) / 2 = B := by omega
            rw [hmb]
            exact ⟨rfl, rfl⟩)
        simp [fineLoopF, hlh, hacc, hrec]
      · have hacc : acceptedCode (probe ((low + high) / 2)).1 = false := by
          cases h : acceptedCode (probe ((low + high) / 2)).1
          · rfl
          · exact absurd ((hmono _).mp h) hcase
        have hrec := ih low ((low + high) / 2 - 1) ok hd
          (by simp only [loopFuel] at hf ⊢; omega) h1 (by omega) h3
        simp [fineLoopF, hlh, hacc, hrec]
    · obtain ⟨hok, hhd⟩ := h3 (by omega)
      simp [fineLoopF, hlh, hok, hhd]

lemma fineLoopTraceF_inv (probe : Probe) :
    ∀ (fuel : Nat) (low high ok : Int) (hd : Headers),
      (∀ e ∈ (fineLoopTraceF probe fuel low high ok hd).2,
          e.2.1 = (probe e.1).1 ∧ e.2.2 = (probe e.1).2 ∧ low ≤ e.1 ∧ e.1 ≤ high) ∧
      (((fineLoopTraceF probe fuel low high ok hd).1 = (ok, hd) ∧
          ∀ e ∈ (fineLoopTraceF probe fuel low high ok hd).2, acceptedCode e.2.1 = false) ∨
        (∃ e, e ∈ (fineLoopTraceF probe fuel low high ok hd).2 ∧
          acceptedCode e.2.1 = true ∧
          e.1 = (fineLoopTraceF probe fuel low high ok hd).1.1 ∧
          e.2.2 = (fineLoopTraceF probe fuel low high ok hd).1.2)) := by
  intro fuel
  induction fuel with
  | zero =>
    intro low high ok hd
    refine ⟨?_, Or.inl ⟨rfl, ?_⟩⟩ <;> simp [fineLoopTraceF]
  | succ n ih =>
    intro low high ok hd
    by_cases hlh : low ≤ high
    · have hm1 : low ≤ (low + high) / 2 := by omega
      have hm2 : (low + high) / 2 ≤ high := by omega
      by_cases hacc : acceptedCode (probe ((low + high) / 2)).1 = true
      · have heq : fineLoopTraceF probe (n + 1) low high ok hd =
            ((fineLoopTraceF probe n ((low + high) / 2 + 1) high ((low + high) / 2)
                (probe ((low + high) / 2)).2).1,
             ((low + high) / 2, (probe ((low + high) / 2)).1,
                (probe ((low + high) / 2)).2) ::
               (fineLoopTraceF probe n ((low + high) / 2 + 1) high ((low + high) / 2)
                 (probe ((low + high) / 2)).2).2) := by
          simp [fineLoopTraceF, hlh, hacc]
        obtain ⟨ihB, ihD⟩ := ih ((low + high) / 2 + 1) high ((low + high) / 2)
          (probe ((low + high) / 2)).2
        rw [heq]
        constructor
        · intro e he
          rcases List.mem_cons.mp he with h | h
          · subst h; exact ⟨rfl, rfl, hm1, hm2⟩
          · obtain ⟨e1, e2, e3, e4⟩ := ihB e h
            exact ⟨e1, e2, by omega, e4⟩
        · rcases ihD with ⟨hv, _⟩ | ⟨e, he, hea, he1, he2⟩
          · refine Or.inr ⟨((low + high) / 2, (probe ((low + high) / 2)).1,
              (probe ((low + high) / 2)).2), List.mem_cons_self _ _, hacc, ?_, ?_⟩
            · rw [hv]
            · rw [hv]
          · exact Or.inr ⟨e, List.mem_cons_of_mem _ he, hea, he1, he2⟩
      · have heq : fineLoopTraceF probe (n + 1) low high ok hd =
            ((fineLoopTraceF probe n low ((low + high) / 2 - 1) ok hd).1,
             ((low + high) / 2, (probe ((low + high) / 2)).1,
                (probe ((low + high) / 2)).2) ::
               (fineLoopTraceF probe n low ((low + high) / 2 - 1) ok hd).2) := by
          simp [fineLoopTraceF, hlh, hacc]
        simp only [Bool.not_eq_true] at hacc
        obtain ⟨ihB, ihD⟩ := ih low ((low + high) / 2 - 1) ok hd
        rw [heq]
        constructor
        · intro e he
          rcases List.mem_cons.mp he with h | h
          · subst h; exact ⟨rfl, rfl, hm1, hm2⟩
          · obtain ⟨e1, e2, e3, e4⟩ := ihB e h
            exact ⟨e1, e2, e3, by omega⟩
        · rcases ihD with ⟨hv, hnone⟩ | ⟨e, he, hea, he1, he2⟩
          · refine Or.inl ⟨hv, ?_⟩
            intro e he
            rcases List.mem_cons.mp he with h | h
            · subst h; exact hacc
            · exact hnone e h
          · exact Or.inr ⟨e, List.mem_cons_of_mem _ he, hea, he1, he2⟩
    · refine ⟨?_, Or.inl ⟨?_, ?_⟩⟩ <;> simp [fineLoopTraceF, hlh]

lemma fineLoopTraceF_fst (probe : Probe) :
    ∀ (fuel : Nat) (low high ok : Int) (hd : Headers),
      (fineLoopTraceF probe fuel low high ok hd).1 = fineLoopF probe fuel low high ok hd := by
  intro fuel
  induction fuel with
  | zero => intro low high ok hd; rfl
  | succ n ih =>
    intro low high ok hd
    by_cases hlh : low ≤ high
    · by_cases hacc : acceptedCode (probe ((low + high) / 2)).1 = true
      · simp [fineLoopTraceF, fineLoopF, hlh, hacc, ih]
      · simp [fineLoopTraceF, fineLoopF, hlh, hacc, ih]
    · simp [fineLoopTraceF, fineLoopF, hlh]

lemma classify_accepted_iff (c : Nat) :
    (coarseClassifyPayload c = Outcome.ACCEPTED ↔ acceptedCode c = true) ∧
    (coarseClassifyHeader c = Outcome.ACCEPTED ↔ acceptedCode c = true) ∧
    (fineClassify c = Outcome.ACCEPTED ↔ acceptedCode c = true) ∧
    (overshootClassify c = Outcome.ACCEPTED ↔ acceptedCode c = true) := by
  by_cases h : acceptedCode c = true
  · have h400 : (c == 400 || c == 431) = false := by
      rcases (acceptedCode_iff c).mp h with h1 | h1 | h1 | h1 <;> simp [h1]
    simp [coarseClassifyPayload, coarseClassifyHeader, fineClassify, overshootClassify, h, h400]
  · have hf : acceptedCode c = false := by simpa using h
    have h4 : (c == 400) = true ∨ (c == 400) = false := by cases (c == 400) <;> simp
    have h43 : (c == 431) = true ∨ (c == 431) = false := by cases (c == 431) <;> simp
    rcases h4 with h4 | h4 <;> rcases h43 with h43 | h43 <;>
      simp [coarseClassifyPayload, coarseClassifyHeader, fineClassify, overshootClassify,
        hf, h4, h43]

lemma guessScan_eq_none_iff (size : Int) :
    ∀ l : List (Int × String), guessScan size l = none ↔
      ∀ p ∈ l, ¬ ((20 : Int) * (size - p.1).natAbs < p.1) := by
  intro l
  induction l with
  | nil => simp [guessScan]
  | cons hd tl ih =>
    obtain ⟨limit, desc⟩ := hd
    simp only [guessScan]
    by_cases hc : (20 : Int) * (size - limit).natAbs < limit
    · rw [if_pos hc]
      constructor
      · intro h; exact Option.noConfusion h
      · intro h
        exact absurd hc (h (limit, desc) (List.mem_cons_self _ _))
    · rw [if_neg hc, ih]
      constructor
      · intro h p hp
        rcases List.mem_cons.mp hp with he | he
        · subst he; exact hc
        · exact h p he
      · intro h p hp
        exact h p (List.mem_cons_of_mem _ hp)

lemma guessScan_some (size : Int) :
    ∀ (l : List (Int × String)) (d : String), guessScan size l = some d →
      ∃ p ∈ l, ((20 : Int) * (size - p.1).natAbs < p.1) ∧ d = p.2 := by
  intro l
  induction l with
  | nil => intro d hd; cases hd
  | cons hd tl ih =>
    intro d hsome
    obtain ⟨limit, desc⟩ := hd
    simp only [guessScan] at hsome
    by_cases hc : (20 : Int) * (size - limit).natAbs < limit
    · rw [if_pos hc] at hsome
      injection hsome with hsome
      exact ⟨(limit, desc), List.mem_cons_self _ _, hc, hsome.symm⟩
    · rw [if_neg hc] at hsome
      obtain ⟨p, hp, hpc, hpd⟩ := ih d hsome
      exact ⟨p, List.mem_cons_of_mem _ hp, hpc, hpd⟩

/-! ## Claim theorems -/

/-- The coarse locator's contract on range `[low, high]`, stated over the
probes it actually issues: every probe lies in `[low, high]` and records the
probe function's status; and either the result is `0` with no issued probe
ACCEPTED, or the result was itself probed and ACCEPTED, is the largest
ACCEPTED size probed, and lies in `[low, high]`. -/
def coarseSpec (probe : Probe) (low high : Int) : Prop :=
  (∀ p ∈ (coarseSearchTrace probe low high 0).2,
      low ≤ p.1 ∧ p.1 ≤ high ∧ p.2 = (probe p.1).1) ∧
  (((coarseSearchTrace probe low high 0).1 = 0 ∧
      ∀ p ∈ (coarseSearchTrace probe low high 0).2, acceptedCode p.2 = false) ∨
    (∃ c, ((coarseSearchTrace probe low high 0).1, c) ∈ (coarseSearchTrace probe low high 0).2 ∧
      acceptedCode c = true ∧
      (∀ p ∈ (coarseSearchTrace probe low high 0).2,
          acceptedCode p.2 = true → p.1 ≤ (coarseSearchTrace probe low high 0).1) ∧
      low ≤ (coarseSearchTrace probe low high 0).1 ∧
      (coarseSearchTrace probe low high 0).1 ≤ high))

/-- **C1.** For every probe function and every range with `low ≤ high`, the
coarse binary search (the loop of `binary_search_max_payload` /
`binary_search_max_header`, a probe being ACCEPTED exactly when its status is
in `{200, 201, 204, 501}`) returns `0` when no probe it issued was ACCEPTED,
and otherwise the largest ACCEPTED size among the probes it actually issued,
which then lies within `[low, high]`; the two named searches are this loop at
their configured ranges. -/
theorem coarse_locator_returns_largest_accepted (probe : Probe) (low high : Int)
    (hrange : low ≤ high) :
    coarseSpec probe low high ∧
    binary_search_max_payload probe = (coarseSearchTrace probe MIN_SIZE MAX_SIZE 0).1 ∧
    binary_search_max_header probe =
      (coarseSearchTrace probe HEADER_MIN_SIZE HEADER_MAX_SIZE 0).1 := by
  obtain ⟨hB, hD, hM⟩ := coarseLoopTraceF_inv probe (loopFuel low high) low high 0
  refine ⟨⟨hB, ?_⟩, (coarseSearchTrace_fst probe _ _ _).symm,
    (coarseSearchTrace_fst probe _ _ _).symm⟩
  rcases hD with ⟨hv, hnone⟩ | ⟨c, hc, hca, hcl, hch⟩
  · exact Or.inl ⟨hv, hnone⟩
  · exact Or.inr ⟨c, hc, hca, hM, hcl, hch⟩

/-- Witness for C1: the always-rejecting probe on the range `[1, 3]`. -/
theorem coarse_locator_returns_largest_accepted_witness :
    (1 : Int) ≤ 3 ∧
    (coarseSpec alwaysRejectProbe 1 3 ∧
      binary_search_max_payload alwaysRejectProbe =
        (coarseSearchTrace alwaysRejectProbe MIN_SIZE MAX_SIZE 0).1 ∧
      binary_search_max_header alwaysRejectProbe =
        (coarseSearchTrace alwaysRejectProbe HEADER_MIN_SIZE HEADER_MAX_SIZE 0).1) :=
  ⟨by decide, coarse_locator_returns_largest_accepted alwaysRejectProbe 1 3 (by decide)⟩

/-- **C9.** The coarse-search loop terminates for every probe function and
every pair of integer bounds: its behavior is already final with
`loopFuel low high = (high + 1 - low).toNat` iterations of fuel — any larger
fuel computes the same result and trace, because each iteration strictly
shrinks `high - low` (floor midpoint, also on ranges of size 1) until
`low > high` — and it issues at most `loopFuel low high` probes. -/
theorem coarse_search_terminates_within_range_fuel (probe : Probe)
    (low high fm : Int) (fuel : Nat) (hfuel : loopFuel low high ≤ fuel) :
    coarseLoopTraceF probe fuel low high fm = coarseSearchTrace probe low high fm ∧
    (coarseSearchTrace probe low high fm).2.length ≤ loopFuel low high :=
  ⟨coarseLoopTraceF_fuel_irrel probe fuel (loopFuel low high) low high fm hfuel le_rfl,
   coarseLoopTraceF_length probe (loopFuel low high) low high fm⟩

/-- Witness for C9: the always-accepting probe on `[1, 3]` with fuel 12. -/
theorem coarse_search_terminates_within_range_fuel_witness :
    loopFuel 1 3 ≤ 12 ∧
    (coarseLoopTraceF alwaysOkProbe 12 1 3 0 = coarseSearchTrace alwaysOkProbe 1 3 0 ∧
      (coarseSearchTrace alwaysOkProbe 1 3 0).2.length ≤ loopFuel 1 3) :=
  ⟨by decide, coarse_search_terminates_within_range_fuel alwaysOkProbe 1 3 0 12 (by decide)⟩

/-- **C3 counterexample.** In `refine_boundary`, both the overshoot phase and
the fine phase classify status `431` as BLOCKED regardless of the probe kind
— `refine_boundary` receives the probe function (`test_payload` or
`test_header`) but never a kind, and its `http_code in (400, 431)` branches
print `✗ BLOCKED` for payload probes too — so `431` with a payload probe is
not classified ERROR in every classification site, contrary to the claim. -/
theorem refine_phases_classify_431_blocked_for_payload :
    overshootClassify 431 = Outcome.BLOCKED ∧
    fineClassify 431 = Outcome.BLOCKED ∧
    Outcome.BLOCKED ≠ Outcome.ERROR := by
  decide

/-- **C3 amended.** Status `431` is classified BLOCKED in the header coarse
search and ERROR in the payload coarse search, but in `refine_boundary`'s
overshoot and fine phases — which serve both probe kinds — `431` is
classified BLOCKED; `400` is BLOCKED at every site and `200`/`201`/`204`/
`501` are ACCEPTED at every site. -/
theorem status_431_classification_by_site :
    coarseClassifyPayload 431 = Outcome.ERROR ∧
    coarseClassifyHeader 431 = Outcome.BLOCKED ∧
    overshootClassify 431 = Outcome.BLOCKED ∧
    fineClassify 431 = Outcome.BLOCKED ∧
    (coarseClassifyPayload 400 = Outcome.BLOCKED ∧
      coarseClassifyHeader 400 = Outcome.BLOCKED ∧
      overshootClassify 400 = Outcome.BLOCKED ∧ fineClassify 400 = Outcome.BLOCKED) ∧
    (coarseClassifyPayload 200 = Outcome.ACCEPTED ∧
      coarseClassifyPayload 201 = Outcome.ACCEPTED ∧
      coarseClassifyPayload 204 = Outcome.ACCEPTED ∧
      coarseClassifyPayload 501 = Outcome.ACCEPTED) ∧
    (coarseClassifyHeader 200 = Outcome.ACCEPTED ∧
      coarseClassifyHeader 201 = Outcome.ACCEPTED ∧
      coarseClassifyHeader 204 = Outcome.ACCEPTED ∧
      coarseClassifyHeader 501 = Outcome.ACCEPTED) ∧
    (overshootClassify 200 = Outcome.ACCEPTED ∧ overshootClassify 201 = Outcome.ACCEPTED ∧
      overshootClassify 204 = Outcome.ACCEPTED ∧ overshootClassify 501 = Outcome.ACCEPTED) ∧
    (fineClassify 200 = Outcome.ACCEPTED ∧ fineClassify 201 = Outcome.ACCEPTED ∧
      fineClassify 204 = Outcome.ACCEPTED ∧ fineClassify 501 = Outcome.ACCEPTED) := by
  decide

/-- **C4.** The overshoot phase of `refine_boundary` has no upper ceiling:
for a probe whose every status is ACCEPTED the `while True` loop keeps adding
10000 and never breaks, so in the fuel embedding `refine_boundary` returns
`none` for every fuel — it never returns. -/
theorem refine_boundary_diverges_on_always_accepted (probe : Probe) (base : Int)
    (fuel : Nat) (hall : ∀ s : Int, acceptedCode (probe s).1 = true) :
    refine_boundary probe base fuel = none := by
  simp [refine_boundary, overshootF_none_of_all_accepted probe hall fuel base]

/-- Witness for C4: the probe that answers HTTP 200 at every size. -/
theorem refine_boundary_diverges_on_always_accepted_witness :
    (∀ s : Int, acceptedCode (alwaysOkProbe s).1 = true) ∧
    refine_boundary alwaysOkProbe 64000 1000 = none :=
  ⟨fun _ => rfl,
   refine_boundary_diverges_on_always_accepted alwaysOkProbe 64000 1000 (fun _ => rfl)⟩

/-- **C5.** If the very first overshoot probe at `current = base` is not
ACCEPTED (either `400`/`431` or any other code), the overshoot loop breaks
immediately with `current = base`, the fine phase runs on the degenerate
bracket `[base, base]`, re-probes `base`, is rejected again (the probe is a
deterministic function), and `refine_boundary` returns `(base, {})`. -/
theorem refine_boundary_degenerate_bracket (probe : Probe) (base : Int) (fuel : Nat)
    (hfuel : 0 < fuel) (hrej : acceptedCode (probe base).1 = false) :
    refine_boundary probe base fuel = some (base, []) := by
  obtain ⟨n, rfl⟩ : ∃ n, fuel = n + 1 := ⟨fuel - 1, by omega⟩
  have hover : overshootF probe (n + 1) base = some base := by
    by_cases h400 : ((probe base).1 == 400 || (probe base).1 == 431) = true
    · simp [overshootF, h400]
    · have h400f : ((probe base).1 == 400 || (probe base).1 == 431) = false := by
        simpa using h400
      simp [overshootF, h400f, hrej]
  have hfine : fineSearch probe base base base [] = (base, []) := by
    have h1 : loopFuel base base = 1 := by simp [loopFuel]
    have hmid : (base + base) / 2 = base := by omega
    simp [fineSearch, h1, fineLoopF, hmid, hrej]
  simp [refine_boundary, hover, hfine]

/-- Witness for C5: a probe answering HTTP 403 everywhere, at `base = 5`. -/
theorem refine_boundary_degenerate_bracket_witness :
    0 < 3 ∧ acceptedCode (alwaysRejectProbe 5).1 = false ∧
    refine_boundary alwaysRejectProbe 5 3 = some (5, []) :=
  ⟨by decide, by decide,
   refine_boundary_degenerate_bracket alwaysRejectProbe 5 3 (by decide) (by decide)⟩

/-- **C2.** For a monotonic probe — ACCEPTED exactly on sizes `≤ B` — and a
base with `base ≤ B`, given enough overshoot fuel (`B + 10000 <
base + 10000 * fuel`, the number of `while True` iterations the source would
run), `refine_boundary` returns exactly `B` paired with the response headers
of the probe at `B` itself; moreover `B` is ACCEPTED and `B + 1` is not. -/
theorem refine_boundary_exact_on_monotone (probe : Probe) (B base : Int) (fuel : Nat)
    (hmono : ∀ s : Int, acceptedCode (probe s).1 = true ↔ s ≤ B)
    (hbase : base ≤ B) (hfuel : B + 10000 < base + 10000 * (fuel : Int)) :
    refine_boundary probe base fuel = some (B, (probe B).2) ∧
    acceptedCode (probe B).1 = true ∧ acceptedCode (probe (B + 1)).1 = false := by
  obtain ⟨c, hc, hBc, hcB⟩ := overshootF_monotone probe B hmono fuel base (by omega) hfuel
  have hfine : fineSearch probe base c base [] = (B, (probe B).2) :=
    fineLoopF_monotone probe B hmono (loopFuel base c) base c base [] le_rfl (by omega)
      (by omega) (fun he => absurd he (by omega))
  refine ⟨by simp [refine_boundary, hc, hfine], (hmono B).mpr le_rfl, ?_⟩
  cases h : acceptedCode (probe (B + 1)).1
  · rfl
  · have := (hmono (B + 1)).mp h
    omega

/-- Witness for C2, which is also the spec's end-to-end scenario: for the
mock probe accepting exactly sizes `≤ 73000`, the coarse search over
`[MIN_SIZE, MAX_SIZE] = [64000, 10485760]` returns `73000`, and
`refine_boundary` on that base returns exactly `73000` with the headers of
the accepting probe at `73000`. -/
theorem refine_boundary_exact_on_monotone_witness :
    (∀ s : Int, acceptedCode (mockProbe s).1 = true ↔ s ≤ 73000) ∧
    binary_search_max_payload mockProbe = 73000 ∧
    (73000 : Int) ≤ 73000 ∧
    (73000 : Int) + 10000 < 73000 + 10000 * ((5 : Nat) : Int) ∧
    refine_boundary mockProbe 73000 5 = some (73000, [("Server", "mock-edge")]) := by
  have hmono : ∀ s : Int, acceptedCode (mockProbe s).1 = true ↔ s ≤ 73000 := by
    intro s
    by_cases h : s ≤ 73000 <;> simp [mockProbe, h, acceptedCode]
  refine ⟨hmono, by decide, by decide, by decide, ?_⟩
  have h := (refine_boundary_exact_on_monotone mockProbe 73000 73000 5 hmono (by decide)
    (by decide)).1
  simpa [mockProbe] using h

/-- **C6.** Fine-phase pairing invariant: each probe in the fine-phase trace
records exactly the status and the headers the probe function returns at its
size, and the result either is the initial `(last_ok, last_headers)` pair
with no fine-phase probe ACCEPTED, or consists of the size of an ACCEPTED
fine-phase probe together with that very probe's own response headers;
`refine_boundary` enters this loop with `last_ok = base_size` and
`last_headers = {}` (see `refine_boundary`), so when nothing is accepted the
result is `(base, {})`. -/
theorem fine_phase_pairs_headers_with_last_ok (probe : Probe) (low high ok : Int)
    (hd : Headers) :
    (∀ e ∈ (fineSearchTrace probe low high ok hd).2,
        e.2.1 = (probe e.1).1 ∧ e.2.2 = (probe e.1).2 ∧ low ≤ e.1 ∧ e.1 ≤ high) ∧
    (((fineSearchTrace probe low high ok hd).1 = (ok, hd) ∧
        ∀ e ∈ (fineSearchTrace probe low high ok hd).2, acceptedCode e.2.1 = false) ∨
      (∃ e, e ∈ (fineSearchTrace probe low high ok hd).2 ∧
        acceptedCode e.2.1 = true ∧
        e.1 = (fineSearchTrace probe low high ok hd).1.1 ∧
        e.2.2 = (fineSearchTrace probe low high ok hd).1.2)) ∧
    (fineSearchTrace probe low high ok hd).1 = fineSearch probe low high ok hd :=
  ⟨(fineLoopTraceF_inv probe (loopFuel low high) low high ok hd).1,
   (fineLoopTraceF_inv probe (loopFuel low high) low high ok hd).2,
   fineLoopTraceF_fst probe (loopFuel low high) low high ok hd⟩

/-- Witness for C6: the mock probe on the bracket `[72995, 73005]` with the
initial state `refine_boundary` would supply. -/
theorem fine_phase_pairs_headers_with_last_ok_witness :
    (∀ e ∈ (fineSearchTrace mockProbe 72995 73005 72995 []).2,
        e.2.1 = (mockProbe e.1).1 ∧ e.2.2 = (mockProbe e.1).2 ∧
          (72995 : Int) ≤ e.1 ∧ e.1 ≤ 73005) ∧
    (((fineSearchTrace mockProbe 72995 73005 72995 []).1 = (72995, []) ∧
        ∀ e ∈ (fineSearchTrace mockProbe 72995 73005 72995 []).2,
          acceptedCode e.2.1 = false) ∨
      (∃ e, e ∈ (fineSearchTrace mockProbe 72995 73005 72995 []).2 ∧
        acceptedCode e.2.1 = true ∧
        e.1 = (fineSearchTrace mockProbe 72995 73005 72995 []).1.1 ∧
        e.2.2 = (fineSearchTrace mockProbe 72995 73005 72995 []).1.2)) ∧
    (fineSearchTrace mockProbe 72995 73005 72995 []).1 =
      fineSearch mockProbe 72995 73005 72995 [] :=
  fine_phase_pairs_headers_with_last_ok mockProbe 72995 73005 72995 []

/-- **C7.** When the coarse search of a probe kind returns `0`, that kind's
pipeline result is `None` no matter what boundary refiner or limit guesser
would be used (neither is consulted), the final summary reports that no
successful size was found for that kind, and the other kind's pipeline
result is exactly what it would be on its own — the pipelines are
independent. -/
theorem zero_coarse_skips_refiner_and_reporter (hp pp : Probe) (fuel : Nat) :
    (binary_search_max_header hp = 0 →
      runHeaderPipeline hp fuel = none ∧
      (∀ (refineF : Int → Option (Int × Headers)) (guessF : Int → String),
        pipelineWith (binary_search_max_header hp) refineF guessF = none) ∧
      reportOf (async_main hp pp fuel).1 = KindReport.notFound ∧
      (async_main hp pp fuel).2 = runPayloadPipeline pp fuel) ∧
    (binary_search_max_payload pp = 0 →
      runPayloadPipeline pp fuel = none ∧
      (∀ (refineF : Int → Option (Int × Headers)) (guessF : Int → String),
        pipelineWith (binary_search_max_payload pp) refineF guessF = none) ∧
      reportOf (async_main hp pp fuel).2 = KindReport.notFound ∧
      (async_main hp pp fuel).1 = runHeaderPipeline hp fuel) := by
  constructor
  · intro h0
    have hnone : ∀ (refineF : Int → Option (Int × Headers)) (guessF : Int → String),
        pipelineWith (binary_search_max_header hp) refineF guessF = none := by
      intro refineF guessF
      simp [pipelineWith, h0]
    refine ⟨hnone _ _, hnone, ?_, rfl⟩
    have h1 : (async_main hp pp fuel).1 = none :=
      hnone (fun base => refine_boundary hp base fuel) guess_limit_type
    simp only [h1, reportOf]
  · intro h0
    have hnone : ∀ (refineF : Int → Option (Int × Headers)) (guessF : Int → String),
        pipelineWith (binary_search_max_payload pp) refineF guessF = none := by
      intro refineF guessF
      simp [pipelineWith, h0]
    refine ⟨hnone _ _, hnone, ?_, rfl⟩
    have h2 : (async_main hp pp fuel).2 = none :=
      hnone (fun base => refine_boundary pp base fuel) guess_limit_type
    simp only [h2, reportOf]

/-- Witness for C7: a header probe rejected everywhere (coarse header search
returns 0) while the payload side uses the mock probe. -/
theorem zero_coarse_skips_refiner_and_reporter_witness :
    binary_search_max_header alwaysRejectProbe = 0 ∧
    runHeaderPipeline alwaysRejectProbe 3 = none ∧
    reportOf (async_main alwaysRejectProbe mockProbe 3).1 = KindReport.notFound := by
  have h0 : binary_search_max_header alwaysRejectProbe = 0 := by decide
  have h := (zero_coarse_skips_refiner_and_reporter alwaysRejectProbe mockProbe 3).1 h0
  exact ⟨h0, h.1, h.2.2.1⟩

/-- **C8 counterexample.** When both pipelines produce a result, the
`AZION METADATA` block of the final summary is computed from the payload
result's headers alone (line 294: `payload_result['headers'] if
payload_result else header_result['headers']`): with a header result whose
headers carry vendor metadata (`Server: edge-h`) and a payload result
carrying different metadata, the reported metadata is the payload's and the
header result's own non-empty metadata is not reported per kind. -/
theorem metadata_reported_only_from_payload_result :
    metadataSection (some ⟨9000, [("Server", "edge-h")], "g1"⟩)
        (some ⟨73000, [("x-cache", "HIT")], "g2"⟩) = [("x-cache", "HIT")] ∧
    extract_azion_metadata [("Server", "edge-h")] = [("Server", "edge-h")] ∧
    ([("x-cache", "HIT")] : Headers) ≠ [("Server", "edge-h")] := by
  decide

/-- **C8 amended.** Each probe kind's guess label does come from its own
size (`pipelineWith` stores `guessF` of its own refined size), but the
vendor-metadata block is extracted from a single headers mapping: the
payload result's headers whenever the payload pipeline produced a result,
else the header result's headers, else nothing. -/
theorem summary_metadata_single_source (hr : Option PipelineResult)
    (p h : PipelineResult) (coarseResult : Int)
    (refineF : Int → Option (Int × Headers)) (guessF : Int → String)
    (r : PipelineResult) (hres : pipelineWith coarseResult refineF guessF = some r) :
    metadataSection hr (some p) = extract_azion_metadata p.headers ∧
    metadataSection (some h) none = extract_azion_metadata h.headers ∧
    metadataSection none none = [] ∧
    r.guess = guessF r.size := by
  refine ⟨rfl, rfl, rfl, ?_⟩
  unfold pipelineWith at hres
  split at hres
  · split at hres
    · injection hres with hres
      subst hres
      rfl
    · cases hres
  · cases hres

/-- Witness for C8 (amended form): a pipeline that refines coarse result 5 to
size 7 with an `azion-id` header. -/
theorem summary_metadata_single_source_witness :
    pipelineWith 5 (fun _ => some (7, [("azion-id", "z")])) (fun _ => "guess-7") =
      some ⟨7, [("azion-id", "z")], "guess-7"⟩ ∧
    (⟨7, [("azion-id", "z")], "guess-7"⟩ : PipelineResult).guess =
      (fun _ : Int => "guess-7") (⟨7, [("azion-id", "z")], "guess-7"⟩ : PipelineResult).size :=
  ⟨by decide,
   (summary_metadata_single_source none ⟨0, [], ""⟩ ⟨0, [], ""⟩ 5
      (fun _ => some (7, [("azion-id", "z")])) (fun _ => "guess-7")
      ⟨7, [("azion-id", "z")], "guess-7"⟩ (by decide)).2.2.2⟩

/-- **C10.** For positive sizes, `guess_limit_type` returns a table entry's
label exactly when the size is within strict 5% relative tolerance of that
entry's limit — `|size - L| / L < 0.05`, in exact integer form
`20 * |size - L| < L` — and otherwise the fallback `f"{size/1024:.2f}"`
followed by `" KB (custom limit)"`; concretely `guess_limit_type 65500` is
the 64 KB label and `guess_limit_type 77777` is the 75.95 KB custom label. -/
theorem guess_limit_type_tolerance_and_fallback (size : Int) (hpos : 0 < size) :
    ((∃ p ∈ common_limits, (20 : Int) * (size - p.1).natAbs < p.1) →
      ∃ p ∈ common_limits, (20 : Int) * (size - p.1).natAbs < p.1 ∧
        guess_limit_type size = p.2) ∧
    ((∀ p ∈ common_limits, ¬ ((20 : Int) * (size - p.1).natAbs < p.1)) →
      guess_limit_type size = formatKB2dp size ++ " KB (custom limit)") ∧
    guess_limit_type 65500 = "64 KB (common WAF limit)" ∧
    guess_limit_type 77777 = "75.95 KB (custom limit)" := by
  refine ⟨?_, ?_, by decide, by decide⟩
  · intro hex
    obtain ⟨p, hp, hlt⟩ := hex
    cases hscan : guessScan size common_limits with
    | none =>
      exact absurd hlt ((guessScan_eq_none_iff size common_limits).mp hscan p hp)
    | some d =>
      obtain ⟨q, hq, hqc, hd⟩ := guessScan_some size common_limits d hscan
      refine ⟨q, hq, hqc, ?_⟩
      simp [guess_limit_type, hscan, hd]
  · intro hall
    have hnone : guessScan size common_limits = none :=
      (guessScan_eq_none_iff size common_limits).mpr hall
    simp [guess_limit_type, hnone]

/-- Witness for C10 at the spec's two scenario sizes. -/
theorem guess_limit_type_tolerance_and_fallback_witness :
    (0 : Int) < 65500 ∧ guess_limit_type 65500 = "64 KB (common WAF limit)" ∧
    guess_limit_type 77777 = "75.95 KB (custom limit)" :=
  ⟨by decide, (guess_limit_type_tolerance_and_fallback 65500 (by decide)).2.2.1,
   (guess_limit_type_tolerance_and_fallback 65500 (by decide)).2.2.2⟩
